import Mathlib

/-!
Shallow embedding of the comment-block formatter (`convert` / `to_comment`)
and the docstring signature parser of the `katzenp/sublime` repository.

Python strings are modelled as `List Char` (`PyStr`).  The two revisions of
`commentf_command.py` (under `src/main/python` and
`src/python/sublime/plugins`) share all logic except that the plugins
revision strips trailing whitespace from every rendered line; both are
obtained from one parameterised core (`convertAux`).  Python's
`str.format` padding mini-language is modelled by `pyFormat`, including the
fact that a negative field width renders as a format spec containing a
sign, which `str.__format__` rejects for strings (modelled as an error
result).
-/

/-- Python strings, modelled as lists of characters. -/
abbrev PyStr := List Char

/-- Coerce a Lean string literal to the model type. -/
def pystr (s : String) : PyStr := s.data

/-- Python's `\s` class for the ASCII range (`re` whitespace). -/
def pyIsSpace (c : Char) : Bool :=
  c == ' ' || c == '\t' || c == '\n' || c == '\r' || c == '\x0b' || c == '\x0c'

/-- Embedding of `get_indent`: the match of `^(\s*)`, i.e. the leading
whitespace run of the text. -/
def get_indent (text : PyStr) : PyStr := text.takeWhile pyIsSpace

/-- Python `str.split(sep)` for a one-character separator:
`pySplit sep s` never returns `[]`; splitting the empty string gives
`[[]]`. -/
def pySplit (sep : Char) : PyStr → List PyStr
  | [] => [[]]
  | c :: rest =>
    if c = sep then [] :: pySplit sep rest
    else
      match pySplit sep rest with
      | [] => [[c]]
      | g :: gs => (c :: g) :: gs

/-- Python `s.replace(pat, "", 1)`: delete the first (leftmost) occurrence
of `pat` as a substring of `s`; `s` is unchanged when `pat` does not occur
(an empty `pat` matches at position 0 and deletes nothing). -/
def replaceFirst (s pat : PyStr) : PyStr :=
  match s with
  | [] => []
  | c :: rest =>
    if pat.isPrefixOf (c :: rest) then (c :: rest).drop pat.length
    else c :: replaceFirst rest pat

/-- Whether `pat` occurs as a contiguous substring of `s`. -/
def hasOccurrence (s pat : PyStr) : Bool :=
  match s with
  | [] => pat.isEmpty
  | _ :: rest => pat.isPrefixOf s || hasOccurrence rest pat

/-- Alignment values used by the formatter: the format-spec characters
`"<"`, `"^"`, `">"` (the source tests `align in "<"`, `align == "^"`,
`align == ">"`). -/
inductive Align where
  | left
  | center
  | right
deriving DecidableEq, Repr

/-- The effective fill character of a format spec: an omitted (empty) fill
defaults to a space. -/
def fillChar (fill : PyStr) : Char :=
  match fill with
  | [] => ' '
  | c :: _ => c

/-- Padding of a string to a minimum field width, as Python's format
mini-language does it: no truncation, and `^` puts the odd spare cell on
the right. -/
def pyPad (text : PyStr) (f : Char) (align : Align) (width : Nat) : PyStr :=
  let pad := width - text.length
  match align with
  | .left => text ++ List.replicate pad f
  | .right => List.replicate pad f ++ text
  | .center => List.replicate (pad / 2) f ++ text ++ List.replicate (pad - pad / 2) f

/-- Embedding of `"{text:{fill}{align}{width}}".format(...)` for string
values.  A negative `width` renders as a spec such as `-<-3`, whose `-` is
parsed as a sign, and `str.__format__` raises
`ValueError: Sign not allowed in string format specifier`; a fill of more
than one character is likewise an invalid spec.  Both are modelled as
`Except.error`. -/
def pyFormat (text fill : PyStr) (align : Align) (width : Int) : Except Unit PyStr :=
  if fill.length ≤ 1 ∧ 0 ≤ width then
    .ok (pyPad text (fillChar fill) align width.toNat)
  else
    .error ()

/-- The separating-space insertion of `convert` for a non-empty stripped
line: `"{} "` for left, `" {} "` for center, `" {}"` for right. -/
def addSep (each : PyStr) (align : Align) : PyStr :=
  match align with
  | .left => each ++ [' ']
  | .center => ' ' :: (each ++ [' '])
  | .right => ' ' :: each

/-- `tmp_width` of `convert`: `width - (len(block_indent) + len(symbol) + 1)`. -/
def availWidth (block_indent symbol : PyStr) (width : Int) : Int :=
  width - ((block_indent.length : Int) + (symbol.length : Int) + 1)

/-- The per-line content field of `convert`: the line after
`replace(block_indent, "", 1)` with the separating space added when the
result is non-empty. -/
def contentField (block_indent : PyStr) (align : Align) (each : PyStr) : PyStr :=
  let e1 := replaceFirst each block_indent
  if e1.isEmpty then e1 else addSep e1 align

/-- Rendering of one line of `convert` before any trailing strip:
`LINE = "{indent}{symbol} {text:{fill}{align}{width}}"`. -/
def processLine (block_indent symbol fill : PyStr) (align : Align) (width : Int)
    (each : PyStr) : Except Unit PyStr :=
  match pyFormat (contentField block_indent align each) fill align
      (availWidth block_indent symbol width) with
  | .error e => .error e
  | .ok field => .ok (block_indent ++ symbol ++ ' ' :: field)

/-- Strip of trailing whitespace: `re.sub("\s+$", "", line)`. -/
def pyRstrip (s : PyStr) : PyStr := (s.reverse.dropWhile pyIsSpace).reverse

/-- One rendered line of `convert`; the plugins revision (`strip = true`)
additionally strips trailing whitespace from the rendered line. -/
def renderLine (strip : Bool) (block_indent symbol fill : PyStr) (align : Align)
    (width : Int) (each : PyStr) : Except Unit PyStr :=
  match processLine block_indent symbol fill align width each with
  | .error e => .error e
  | .ok line => .ok (if strip then pyRstrip line else line)

/-- Total variant of `renderLine` used to state order preservation (under a
successful run the error branch is never taken). -/
def renderLineD (strip : Bool) (block_indent symbol fill : PyStr) (align : Align)
    (width : Int) (each : PyStr) : PyStr :=
  match renderLine strip block_indent symbol fill align width each with
  | .ok l => l
  | .error _ => []

/-- The loop of `convert`: processes the split lines in order, skipping a
line exactly when it is the empty string and `empty` is false, fixing
`block_indent` at the first processed line's indent, and propagating the
first formatting error. -/
def convertAux (strip : Bool) (symbol fill : PyStr) (align : Align) (width : Int)
    (empty : Bool) : List PyStr → Option PyStr → Except Unit (List PyStr)
  | [], _ => .ok []
  | each :: rest, bi? =>
    if each.isEmpty && !empty then
      convertAux strip symbol fill align width empty rest bi?
    else
      let bi := bi?.getD (get_indent each)
      match renderLine strip bi symbol fill align width each with
      | .error e => .error e
      | .ok line =>
        match convertAux strip symbol fill align width empty rest (some bi) with
        | .error e => .error e
        | .ok lines => .ok (line :: lines)

/-- The indent of the first line of the block that `convert` does not skip
(the value `block_indent` is fixed at). -/
def firstKeptIndent (lines : List PyStr) (empty : Bool) : Option PyStr :=
  match lines with
  | [] => none
  | each :: rest =>
    if each.isEmpty && !empty then firstKeptIndent rest empty
    else some (get_indent each)

/-- Newline join used by the plugins `to_comment` (`"\n".join(comment)`). -/
def joinNL (lines : List PyStr) : PyStr := List.intercalate ['\n'] lines

/-- Line accumulation of the main-revision `to_comment`
(`comment += line + "\n"`). -/
def concatNL (lines : List PyStr) : PyStr :=
  lines.foldr (fun l acc => l ++ '\n' :: acc) []

namespace MainRev

/-- Embedding of `convert` of `src/main/python/commentf_command.py`
(no trailing strip of rendered lines). -/
def convert (text commenter fill : PyStr) (align : Align) (width : Int)
    (empty : Bool) : Except Unit (List PyStr) :=
  convertAux false commenter fill align width empty (pySplit '\n' text) none

/-- Embedding of `to_comment` of `src/main/python/commentf_command.py`:
body fill is blanked when the text is multi-line or headers are requested;
`BLOCK = "{header}\n{text}{header}"` with `text` already
newline-terminated; a run producing no body lines with `add_headers` set
leaves `block_indent` as `None` and `convert(None, ...)` raises
(modelled as an error). -/
def to_comment (text commenter fill : PyStr) (align : Align) (width : Int)
    (empty add_headers : Bool) : Except Unit PyStr :=
  let block_fill := if text.contains '\n' || add_headers then [] else fill
  match convert text commenter block_fill align width empty with
  | .error e => .error e
  | .ok lines =>
    let comment := concatNL lines
    if add_headers then
      match lines with
      | [] => .error ()
      | l :: _ =>
        match convert (get_indent l) commenter fill align width true with
        | .error e => .error e
        | .ok hlines => .ok (hlines.headD [] ++ '\n' :: (comment ++ hlines.headD []))
    else .ok comment

end MainRev

namespace PluginsRev

/-- Embedding of `convert` of
`src/python/sublime/plugins/commentf_command.py` (each rendered line is
stripped of trailing whitespace before being yielded). -/
def convert (text symbol fill : PyStr) (align : Align) (width : Int)
    (empty : Bool) : Except Unit (List PyStr) :=
  convertAux true symbol fill align width empty (pySplit '\n' text) none

/-- Embedding of `to_comment` of
`src/python/sublime/plugins/commentf_command.py`:
`BLOCK = "{header}\n{text}\n{header}"` around the newline-joined body. -/
def to_comment (text symbol fill : PyStr) (align : Align) (width : Int)
    (empty add_headers : Bool) : Except Unit PyStr :=
  let block_fill := if text.contains '\n' || add_headers then [] else fill
  match convert text symbol block_fill align width empty with
  | .error e => .error e
  | .ok lines =>
    let comment := joinNL lines
    if add_headers then
      match lines with
      | [] => .error ()
      | l :: _ =>
        match convert (get_indent l) symbol fill align width true with
        | .error e => .error e
        | .ok hlines => .ok (hlines.headD [] ++ '\n' :: (comment ++ '\n' :: hlines.headD []))
    else .ok comment

end PluginsRev

/-- Python `\w` (ASCII range): letters, digits, underscore. -/
def pyIsWord (c : Char) : Bool := c.isAlphanum || c == '_'

/-- Python `str.strip()`: remove leading and trailing whitespace. -/
def pyStrip (s : PyStr) : PyStr :=
  ((s.dropWhile pyIsSpace).reverse.dropWhile pyIsSpace).reverse

namespace Pydoc

/-- Scanner equivalent of `re.sub("\s|=[^,]+", "", s)`: whitespace is
deleted; a `=` followed by at least one non-comma character deletes itself
and every following character up to (but excluding) the next comma; a `=`
directly before a comma or at the end matches neither alternative and is
kept.  The `Bool` state is true while inside a `=[^,]+` match. -/
def stripGo : Bool → PyStr → PyStr
  | _, [] => []
  | true, c :: rest =>
    if c = ',' then c :: stripGo false rest
    else stripGo true rest
  | false, c :: rest =>
    if pyIsSpace c then stripGo false rest
    else if c = '=' then
      match rest with
      | [] => ['=']
      | c' :: rest' =>
        if c' = ',' then '=' :: c' :: stripGo false rest'
        else stripGo true rest'
    else c :: stripGo false rest

/-- Parameter extraction of `BaseDoc.parse_text`
(`src/python/sublime/plugins/pydoc_command.py` lines 140-143):
`csv = re.sub("\s|=[^,]+", "", group); csv.split(",")`. -/
def parse_params_csv (params : PyStr) : List PyStr :=
  pySplit ',' (stripGo false params)

/-- Result record of `BaseDoc.parse_text`. -/
structure SigData where
  indent : PyStr
  keyword : PyStr
  name : PyStr
  parameters : List PyStr
deriving DecidableEq, Repr

/-- Split a string at its last `)` character: `some` of the part before
that `)` when one exists.  This is what the greedy `\((.*)\)` tail of the
signature pattern captures. -/
def beforeLastClose (s : PyStr) : Option PyStr :=
  match s.reverse.dropWhile (fun c => !(c = ')')) with
  | [] => none
  | _ :: t => some t.reverse

/-- Match of `re.search("^(\s*)(\w+) (\w+)\((.*)\)", text)`: `\s` and `\w`
are disjoint and neither contains the literal space or parenthesis that
follows it, so the maximal-run reading is exact, and the greedy `(.*)`
captures everything up to the last `)` of the text. -/
def parseSig (text : PyStr) : Option (PyStr × PyStr × PyStr × PyStr) :=
  let indent := text.takeWhile pyIsSpace
  let rest1 := text.dropWhile pyIsSpace
  let keyword := rest1.takeWhile pyIsWord
  match rest1.dropWhile pyIsWord with
  | ' ' :: rest3 =>
    if keyword.isEmpty then none
    else
      let name := rest3.takeWhile pyIsWord
      match rest3.dropWhile pyIsWord with
      | '(' :: rest5 =>
        if name.isEmpty then none
        else
          match beforeLastClose rest5 with
          | some params => some (indent, keyword, name, params)
          | none => none
      | _ => none
  | _ => none

/-- Embedding of `BaseDoc.parse_text`
(`src/python/sublime/plugins/pydoc_command.py`): newlines are removed,
the signature pattern is matched, and the parameters group (when
non-empty) is stripped of whitespace/defaults and split on commas.  No
match yields the empty record. -/
def parse_text (text : PyStr) : SigData :=
  let text := text.filter (fun c => !(c = '\n'))
  match parseSig text with
  | none => ⟨[], [], [], []⟩
  | some (indent, keyword, name, params) =>
    ⟨indent, keyword, name,
      if params.isEmpty then [] else parse_params_csv params⟩

end Pydoc

namespace Docstringer

/-- Parameter names rendered by `Docstringer.func_doc`
(`src/main/python/pydoc_command.py` lines 162-171): the raw parameters
group is split on commas, tokens exactly equal to `self` are skipped, and
each remaining token contributes `p.split("=")[0].strip()`. -/
def funcDocParamNames (params : PyStr) : List PyStr :=
  (pySplit ',' params).filterMap fun p =>
    if p = pystr "self" then none
    else some (pyStrip ((pySplit '=' p).headD []))

end Docstringer

instance {ε α : Type} [DecidableEq ε] [DecidableEq α] : DecidableEq (Except ε α) := fun x y =>
  match x, y with
  | .error a, .error b =>
    if h : a = b then .isTrue (by rw [h]) else .isFalse (fun hh => by cases hh; exact h rfl)
  | .ok a, .ok b =>
    if h : a = b then .isTrue (by rw [h]) else .isFalse (fun hh => by cases hh; exact h rfl)
  | .error _, .ok _ => .isFalse (fun hh => by cases hh)
  | .ok _, .error _ => .isFalse (fun hh => by cases hh)

/-- A character that is neither whitespace nor `=` passes through the
default-stripping scanner unchanged. -/
lemma stripGo_false_keep (c : Char) (s : PyStr) (h1 : pyIsSpace c = false) (h2 : ¬(c = '=')) :
    Pydoc.stripGo false (c :: s) = c :: Pydoc.stripGo false s := by
  cases s with
  | nil => simp [Pydoc.stripGo, h1, h2]
  | cons d t => simp [Pydoc.stripGo, h1, h2]

/-- Splitting a string that starts with a separator-free chunk followed by
the separator yields that chunk as the first group. -/
lemma pySplit_no_sep_append (sep : Char) (xs t : PyStr) (h : ∀ c ∈ xs, ¬(c = sep)) :
    pySplit sep (xs ++ sep :: t) = xs :: pySplit sep t := by
  induction xs with
  | nil => simp [pySplit]
  | cons x xs ih =>
    have hx : ¬(x = sep) := h x (by simp)
    have := ih (fun c hc => h c (by simp [hc]))
    simp [pySplit, hx, this]

/-- When the pattern is a prefix of the line, `replaceFirst` removes
exactly that leading prefix. -/
lemma replaceFirst_of_isPrefixOf (line pat : PyStr)
    (h : pat.isPrefixOf line = true) :
    replaceFirst line pat = line.drop pat.length := by
  cases line with
  | nil =>
    cases pat with
    | nil => rfl
    | cons c cs => simp [List.isPrefixOf] at h
  | cons c rest => simp [replaceFirst, h]

/-- When the pattern does not occur in the line at all, `replaceFirst`
leaves the line unchanged. -/
lemma replaceFirst_of_not_occurs (line pat : PyStr)
    (h : hasOccurrence line pat = false) :
    replaceFirst line pat = line := by
  induction line with
  | nil => rfl
  | cons c rest ih =>
    simp [hasOccurrence] at h
    simp [replaceFirst, h.1, ih h.2]

/-- Claim C1: the spec requires that `available_width ≤ 0` emit zero fill
characters, keep the content, and raise no exception; the code satisfies
this only at `available_width = 0`.  For `available_width < 0`
(here `width = 1`, symbol `#`, no indent, so `available_width = -1`) the
format spec rendered by `LINE.format` contains a negative width, and
Python's `str.__format__` raises
`ValueError: Sign not allowed in string format specifier`, modelled as the
error result of `convert`. -/
theorem convert_available_width_nonpositive_behavior :
    availWidth (get_indent (pystr "foo")) (pystr "#") 1 < 0 ∧
    MainRev.convert (pystr "foo") (pystr "#") (pystr "-") .left 1 true =
      .error () ∧
    availWidth (get_indent (pystr "foo")) (pystr "#") 2 = 0 ∧
    MainRev.convert (pystr "foo") (pystr "#") (pystr "-") .left 2 true =
      .ok [pystr "# foo "] := by
  decide

/-- Counterexample for claim C3: with first-line indent `"  "`, the line
`"b  c"` does not start with the block indent but contains it elsewhere;
the indent-stripping step `each.replace(block_indent, "", 1)` nevertheless
changes it (to `"bc"`), because `str.replace` with count 1 deletes the
first occurrence anywhere in the line, as the full `convert` run shows. -/
theorem replaceFirst_nonprefix_line_changed :
    (pystr "  ").isPrefixOf (pystr "b  c") = false ∧
    hasOccurrence (pystr "b  c") (pystr "  ") = true ∧
    replaceFirst (pystr "b  c") (pystr "  ") ≠ pystr "b  c" ∧
    MainRev.convert (pystr "  a\nb  c") (pystr "#") (pystr "-") .left 12 true =
      .ok [pystr "  # a ------", pystr "  # bc -----"] := by
  decide

/-- Claim C3 (amended): the indent-stripping step of `convert` deletes the first
occurrence of `BlockIndent` anywhere in the line: when the line starts
with `BlockIndent` this removes exactly the leading prefix, and a line in
which `BlockIndent` does not occur at all is left unchanged (but a line
merely containing it elsewhere is modified). -/
theorem replaceFirst_prefix_or_absent (line pat : PyStr) :
    (pat.isPrefixOf line = true → replaceFirst line pat = line.drop pat.length) ∧
    (hasOccurrence line pat = false → replaceFirst line pat = line) :=
  ⟨replaceFirst_of_isPrefixOf line pat, replaceFirst_of_not_occurs line pat⟩

/-- Witness for claim C3 (amended): stripping the block indent `"  "`
from the line `"  ab"`, which starts with it, removes the two leading
characters. -/
theorem replaceFirst_prefix_or_absent_witness :
    replaceFirst (pystr "  ab") (pystr "  ") = (pystr "  ab").drop (pystr "  ").length :=
  (replaceFirst_prefix_or_absent (pystr "  ab") (pystr "  ")).1 (by decide)

/-- Counterexample for claim C4: formatting `"foo"` with symbol `#`, fill `-`,
left alignment and width 20 in line style does not produce the claimed
18-character line `"# foo ------------"` (12 dashes). -/
theorem to_comment_foo_not_claimed_literal :
    PluginsRev.to_comment (pystr "foo") (pystr "#") (pystr "-") .left 20 true false ≠
      .ok (pystr "# foo ------------") := by
  decide

/-- Claim C4 (amended): the single line produced is
`"# foo --------------"` — the content, one space, and 14 fill dashes,
for a total width of exactly 20. -/
theorem to_comment_foo_line_style_eval :
    PluginsRev.to_comment (pystr "foo") (pystr "#") (pystr "-") .left 20 true false =
      .ok (pystr "# foo --------------") ∧
    (pystr "# foo --------------").length = 20 := by
  decide

/-- Counterexample for claim C7: `BaseDoc.parse_text` on
`"    def log(self, msg):"` returns `self` as the first parameter — the
plugins-revision extraction splits on commas without dropping a leading
`self` token. -/
theorem parse_text_keeps_leading_self :
    Pydoc.parse_text (pystr "    def log(self, msg):") =
      ⟨pystr "    ", pystr "def", pystr "log", [pystr "self", pystr "msg"]⟩ ∧
    pystr "self" ∈ (Pydoc.parse_text (pystr "    def log(self, msg):")).parameters := by
  decide

/-- Claim C7 (amended): the plugins revision's `parse_text` strips
defaults/whitespace and splits on commas but keeps a leading `self`, which
becomes the first returned parameter; only the main revision's
`Docstringer.func_doc` skips tokens exactly equal to `self` when it
renders parameter names. -/
theorem parse_params_self_kept_func_doc_skips :
    (∀ s : PyStr,
      (Pydoc.parse_params_csv (pystr "self," ++ s)).head? = some (pystr "self")) ∧
    Docstringer.funcDocParamNames (pystr "self, msg") = [pystr "msg"] := by
  refine ⟨fun s => ?_, by decide⟩
  show (pySplit ',' (Pydoc.stripGo false ('s' :: 'e' :: 'l' :: 'f' :: ',' :: s))).head? =
    some (pystr "self")
  rw [stripGo_false_keep _ _ (by decide) (by decide)]
  rw [stripGo_false_keep _ _ (by decide) (by decide)]
  rw [stripGo_false_keep _ _ (by decide) (by decide)]
  rw [stripGo_false_keep _ _ (by decide) (by decide)]
  rw [stripGo_false_keep _ _ (by decide) (by decide)]
  rw [show ('s' :: 'e' :: 'l' :: 'f' :: ',' :: Pydoc.stripGo false s) =
        (pystr "self" ++ ',' :: Pydoc.stripGo false s) from rfl,
    pySplit_no_sep_append ',' (pystr "self") (Pydoc.stripGo false s) (by decide)]
  rfl

/-- Claim C8: both revisions of `to_comment` are pure functions of their
arguments, so re-formatting the same raw input with identical options
yields an identical result. -/
theorem to_comment_deterministic (text symbol fill : PyStr) (align : Align)
    (width : Int) (empty add_headers : Bool) :
    PluginsRev.to_comment text symbol fill align width empty add_headers =
      PluginsRev.to_comment text symbol fill align width empty add_headers ∧
    MainRev.to_comment text symbol fill align width empty add_headers =
      MainRev.to_comment text symbol fill align width empty add_headers :=
  ⟨rfl, rfl⟩

lemma pyPad_length (s : PyStr) (f : Char) (a : Align) (n : Nat) (h : s.length ≤ n) :
    (pyPad s f a n).length = n := by
  cases a <;> simp [pyPad] <;> omega

lemma renderLine_false (bi sym fill : PyStr) (align : Align) (w : Int) (each : PyStr) :
    renderLine false bi sym fill align w each = processLine bi sym fill align w each := by
  unfold renderLine
  cases processLine bi sym fill align w each <;> simp

lemma processLine_ok (bi sym fill : PyStr) (align : Align) (w : Int) (each l : PyStr)
    (h : processLine bi sym fill align w each = .ok l) :
    0 ≤ availWidth bi sym w ∧
    l = bi ++ (sym ++ ' ' :: pyPad (contentField bi align each) (fillChar fill) align
          (availWidth bi sym w).toNat) := by
  unfold processLine pyFormat at h
  by_cases hc : fill.length ≤ 1 ∧ 0 ≤ availWidth bi sym w
  · rw [if_pos hc] at h
    simp at h
    exact ⟨hc.2, h.symm⟩
  · rw [if_neg hc] at h
    simp at h

lemma convertAux_ok_length (sym fill : PyStr) (align : Align) (w : Int) (e : Bool)
    (bi : PyStr) (hw : 0 ≤ availWidth bi sym w) :
    ∀ lines out,
      (∀ each ∈ lines, ((contentField bi align each).length : Int) ≤ availWidth bi sym w) →
      convertAux false sym fill align w e lines (some bi) = .ok out →
      ∀ l ∈ out, (l.length : Int) = w := by
  intro lines
  induction lines with
  | nil =>
    intro out _ h l hl
    simp [convertAux] at h
    subst h
    simp at hl
  | cons each rest ih =>
    intro out hfit h l hl
    simp only [convertAux] at h
    by_cases hskip : (each.isEmpty && !e) = true
    · rw [if_pos hskip] at h
      exact ih out (fun x hx => hfit x (List.mem_cons_of_mem _ hx)) h l hl
    · rw [if_neg hskip] at h
      simp only [Option.getD_some] at h
      rw [renderLine_false] at h
      cases hpl : processLine bi sym fill align w each with
      | error err => rw [hpl] at h; simp at h
      | ok line =>
        rw [hpl] at h
        cases hrec : convertAux false sym fill align w e rest (some bi) with
        | error err => rw [hrec] at h; simp at h
        | ok rst =>
          rw [hrec] at h
          simp at h
          subst h
          rcases List.mem_cons.mp hl with hl | hl
          · subst hl
            obtain ⟨hw0, hshape⟩ := processLine_ok bi sym fill align w each _ hpl
            subst hshape
            have hfit0 : ((contentField bi align each).length : Int) ≤ availWidth bi sym w :=
              hfit each (List.mem_cons_self _ _)
            have hlen : (contentField bi align each).length ≤ (availWidth bi sym w).toNat := by
              omega
            have hpadlen := pyPad_length (contentField bi align each) (fillChar fill) align
              (availWidth bi sym w).toNat hlen
            simp [List.length_append, hpadlen]
            unfold availWidth at hw ⊢
            omega
          · exact ih rst (fun x hx => hfit x (List.mem_cons_of_mem _ hx)) hrec l hl

lemma convertAux_none_of_firstKept (strip : Bool) (sym fill : PyStr) (align : Align)
    (w : Int) (e : Bool) :
    ∀ (lines : List PyStr) (bi : PyStr), firstKeptIndent lines e = some bi →
      convertAux strip sym fill align w e lines none =
        convertAux strip sym fill align w e lines (some bi) := by
  intro lines
  induction lines with
  | nil => intro bi h; simp [firstKeptIndent] at h
  | cons each rest ih =>
    intro bi h
    rw [firstKeptIndent] at h
    by_cases hskip : (each.isEmpty && !e) = true
    · rw [if_pos hskip] at h
      simp only [convertAux]
      rw [if_pos hskip, if_pos hskip]
      exact ih bi h
    · rw [if_neg hskip] at h
      injection h with h
      simp only [convertAux]
      rw [if_neg hskip, if_neg hskip]
      rw [Option.getD_none, Option.getD_some, h]

/-- Claim C2: when `available_width > 0` and the processed content of every line
fits in it, every line produced by `convert` (main revision) has length
exactly `width`. -/
theorem convert_exact_width (text symbol fill : PyStr) (align : Align) (width : Int)
    (empty : Bool) (bi : PyStr) (out : List PyStr)
    (hbi : firstKeptIndent (pySplit '\n' text) empty = some bi)
    (hw : 0 < availWidth bi symbol width)
    (hfit : ∀ each ∈ pySplit '\n' text,
      ((contentField bi align each).length : Int) ≤ availWidth bi symbol width)
    (h : MainRev.convert text symbol fill align width empty = .ok out) :
    ∀ l ∈ out, (l.length : Int) = width := by
  unfold MainRev.convert at h
  rw [convertAux_none_of_firstKept false symbol fill align width empty _ bi hbi] at h
  exact convertAux_ok_length symbol fill align width empty bi (le_of_lt hw)
    (pySplit '\n' text) out hfit h

/-- Witness for claim C2: formatting `"foo"` with symbol `#`, fill `-`, width 20
produces a line of length exactly 20. -/
theorem convert_exact_width_witness :
    ((pystr "# foo --------------").length : Int) = 20 :=
  convert_exact_width (pystr "foo") (pystr "#") (pystr "-") .left 20 true (pystr "")
    [pystr "# foo --------------"] (by decide) (by decide) (by decide) (by decide)
    (pystr "# foo --------------") (by decide)

lemma convertAux_map_of_ok (strip : Bool) (sym fill : PyStr) (align : Align) (w : Int)
    (bi : PyStr) :
    ∀ (lines : List PyStr) (out : List PyStr),
      convertAux strip sym fill align w true lines (some bi) = .ok out →
      out = lines.map (renderLineD strip bi sym fill align w) := by
  intro lines
  induction lines with
  | nil => intro out h; simp [convertAux] at h; subst h; simp
  | cons each rest ih =>
    intro out h
    simp only [convertAux] at h
    rw [if_neg (by simp)] at h
    simp only [Option.getD_some] at h
    cases hr : renderLine strip bi sym fill align w each with
    | error err => rw [hr] at h; simp at h
    | ok line =>
      rw [hr] at h
      cases hrec : convertAux strip sym fill align w true rest (some bi) with
      | error err => rw [hrec] at h; simp at h
      | ok rst =>
        rw [hrec] at h
        simp at h
        subst h
        have hd : renderLineD strip bi sym fill align w each = line := by
          unfold renderLineD
          rw [hr]
        simp [hd, ih rst hrec]

/-- Claim C5: with `keepEmptyLines` true, a successful run of `convert` (main
revision) produces exactly one output line per physical input line, in
input order: the output is the map of the line renderer (at the first
line's indent) over the split input. -/
theorem convert_keepEmpty_count_order (text symbol fill : PyStr) (align : Align)
    (width : Int) (out : List PyStr)
    (h : MainRev.convert text symbol fill align width true = .ok out) :
    out.length = (pySplit '\n' text).length ∧
    out = (pySplit '\n' text).map
      (renderLineD false (get_indent ((pySplit '\n' text).headD [])) symbol fill align width) := by
  unfold MainRev.convert at h
  cases hs : pySplit '\n' text with
  | nil => rw [hs] at h; simp [convertAux] at h; subst h; simp
  | cons each rest =>
    rw [hs] at h
    have hfk : firstKeptIndent (each :: rest) true = some (get_indent each) := by
      simp [firstKeptIndent]
    rw [convertAux_none_of_firstKept false symbol fill align width true _ _ hfk] at h
    have hmap := convertAux_map_of_ok false symbol fill align width (get_indent each)
      (each :: rest) out h
    constructor
    · simp [hmap]
    · simpa using hmap

/-- Witness for claim C5: the two-line input `"a\nb"` yields two output lines, in
order. -/
theorem convert_keepEmpty_count_order_witness :
    ([pystr "# a --------", pystr "# b --------"] : List PyStr).length =
      (pySplit '\n' (pystr "a\nb")).length ∧
    ([pystr "# a --------", pystr "# b --------"] : List PyStr) =
      (pySplit '\n' (pystr "a\nb")).map
        (renderLineD false (get_indent ((pySplit '\n' (pystr "a\nb")).headD []))
          (pystr "#") (pystr "-") .left 12) :=
  convert_keepEmpty_count_order (pystr "a\nb") (pystr "#") (pystr "-") .left 12
    [pystr "# a --------", pystr "# b --------"] (by decide)

lemma convertAux_dropEmpty_length (strip : Bool) (sym fill : PyStr) (align : Align)
    (w : Int) :
    ∀ (lines : List PyStr) (bi? : Option PyStr) (out : List PyStr),
      convertAux strip sym fill align w false lines bi? = .ok out →
      out.length = (lines.filter (fun l => !l.isEmpty)).length := by
  intro lines
  induction lines with
  | nil => intro bi? out h; simp [convertAux] at h; subst h; simp
  | cons each rest ih =>
    intro bi? out h
    simp only [convertAux] at h
    by_cases he : each.isEmpty = true
    · rw [if_pos (by simp [he])] at h
      rw [List.filter_cons_of_neg (by simp [he])]
      exact ih bi? out h
    · rw [if_neg (by simp [he])] at h
      cases hr : renderLine strip (bi?.getD (get_indent each)) sym fill align w each with
      | error err => rw [hr] at h; simp at h
      | ok line =>
        rw [hr] at h
        cases hrec : convertAux strip sym fill align w false rest
            (some (bi?.getD (get_indent each))) with
        | error err => rw [hrec] at h; simp at h
        | ok rst =>
          rw [hrec] at h
          simp at h
          subst h
          rw [List.filter_cons_of_pos (by simp [he])]
          simp [ih _ rst hrec]

/-- Claim C6: with `keepEmptyLines` false, a successful run of `convert` (main
revision) drops exactly the zero-length input lines: the output has one
line per input line that is not the empty string, so a line consisting
only of whitespace is kept. -/
theorem convert_dropEmpty_filter_count (text symbol fill : PyStr) (align : Align)
    (width : Int) (out : List PyStr)
    (h : MainRev.convert text symbol fill align width false = .ok out) :
    out.length = ((pySplit '\n' text).filter (fun l => !l.isEmpty)).length := by
  unfold MainRev.convert at h
  exact convertAux_dropEmpty_length false symbol fill align width _ none out h

/-- Witness for claim C6: of the four input lines `"a"`, `""`, `"  "`, `"b"` only
the zero-length one is dropped; the whitespace-only line survives. -/
theorem convert_dropEmpty_filter_count_witness :
    ([pystr "# a ------", pystr "#    -----", pystr "# b ------"] : List PyStr).length =
      ((pySplit '\n' (pystr "a\n\n  \nb")).filter (fun l => !l.isEmpty)).length :=
  convert_dropEmpty_filter_count (pystr "a\n\n  \nb") (pystr "#") (pystr "-") .left 10
    [pystr "# a ------", pystr "#    -----", pystr "# b ------"] (by decide)

lemma head_dropWhile_false (p : Char → Bool) :
    ∀ (l : PyStr) (c : Char), (l.dropWhile p).head? = some c → p c = false := by
  intro l
  induction l with
  | nil => intro c h; simp [List.dropWhile] at h
  | cons a t ih =>
    intro c h
    by_cases hp : p a = true
    · rw [List.dropWhile_cons_of_pos hp] at h
      exact ih c h
    · rw [List.dropWhile_cons_of_neg hp] at h
      simp at h
      subst h
      simpa using hp

lemma pyRstrip_no_trailing (s : PyStr) (c : Char)
    (h : (pyRstrip s).getLast? = some c) : pyIsSpace c = false := by
  unfold pyRstrip at h
  rw [List.getLast?_reverse] at h
  exact head_dropWhile_false pyIsSpace _ c h

lemma convertAux_strip_no_trailing (sym fill : PyStr) (align : Align) (w : Int) (e : Bool) :
    ∀ (lines : List PyStr) (bi? : Option PyStr) (out : List PyStr),
      convertAux true sym fill align w e lines bi? = .ok out →
      ∀ l ∈ out, ∀ c, l.getLast? = some c → pyIsSpace c = false := by
  intro lines
  induction lines with
  | nil => intro bi? out h; simp [convertAux] at h; subst h; simp
  | cons each rest ih =>
    intro bi? out h l hl c hc
    simp only [convertAux] at h
    by_cases hskip : (each.isEmpty && !e) = true
    · rw [if_pos hskip] at h
      exact ih bi? out h l hl c hc
    · rw [if_neg hskip] at h
      cases hpl : processLine (bi?.getD (get_indent each)) sym fill align w each with
      | error err =>
        rw [show renderLine true (bi?.getD (get_indent each)) sym fill align w each =
              .error err by unfold renderLine; rw [hpl]] at h
        simp at h
      | ok raw =>
        rw [show renderLine true (bi?.getD (get_indent each)) sym fill align w each =
              .ok (pyRstrip raw) by unfold renderLine; rw [hpl]; rfl] at h
        cases hrec : convertAux true sym fill align w e rest
            (some (bi?.getD (get_indent each))) with
        | error err => rw [hrec] at h; simp at h
        | ok rst =>
          rw [hrec] at h
          simp at h
          subst h
          rcases List.mem_cons.mp hl with hl | hl
          · subst hl
            exact pyRstrip_no_trailing raw c hc
          · exact ih _ rst hrec l hl c hc

/-- Claim C9: in the plugins revision every line yielded by `convert` has had
trailing whitespace stripped, so no output line ends in a whitespace
character. -/
theorem plugins_convert_no_trailing_whitespace (text symbol fill : PyStr) (align : Align)
    (width : Int) (empty : Bool) (out : List PyStr)
    (h : PluginsRev.convert text symbol fill align width empty = .ok out) :
    ∀ l ∈ out, ∀ c, l.getLast? = some c → pyIsSpace c = false := by
  unfold PluginsRev.convert at h
  exact convertAux_strip_no_trailing symbol fill align width empty _ none out h

/-- Witness for claim C9: with a blank fill the padding is whitespace and is
stripped, so the single output line `"# foo"` (shorter than the width 20)
ends in the non-whitespace character `o`. -/
theorem plugins_convert_no_trailing_whitespace_witness : pyIsSpace 'o' = false :=
  plugins_convert_no_trailing_whitespace (pystr "foo") (pystr "#") (pystr "") .left 20 true
    [pystr "# foo"] (by decide) (pystr "# foo") (by decide) 'o' (by decide)

/-- Claim C10: in the plugins `to_comment`, whenever the text contains a newline
or headers are requested, the fill handed to `convert` for the body lines
is the empty string.  Part one: with a multi-line text and no headers the
configured fill is ignored entirely.  Part two: with headers, the body is
exactly the output of `convert` with the empty fill, and the configured
fill enters only through the header line. -/
theorem to_comment_body_fill_blank :
    (∀ (text symbol fill fill' : PyStr) (align : Align) (width : Int) (empty : Bool),
      text.contains '\n' = true →
      PluginsRev.to_comment text symbol fill align width empty false =
        PluginsRev.to_comment text symbol fill' align width empty false) ∧
    (∀ (text symbol fill : PyStr) (align : Align) (width : Int) (empty : Bool)
        (l : PyStr) (rest hlines : List PyStr),
      PluginsRev.convert text symbol [] align width empty = .ok (l :: rest) →
      PluginsRev.convert (get_indent l) symbol fill align width true = .ok hlines →
      PluginsRev.to_comment text symbol fill align width empty true =
        .ok (hlines.headD [] ++ '\n' :: (joinNL (l :: rest) ++ '\n' :: hlines.headD []))) := by
  constructor
  · intro text symbol fill fill' align width empty h
    have h' : '\n' ∈ text := by simpa using h
    simp [PluginsRev.to_comment, h']
  · intro text symbol fill align width empty l rest hlines h1 h2
    simp [PluginsRev.to_comment, h1, h2]

/-- Witness for claim C10: for the two-line input `"a\nb"` in line style the
output is independent of the configured fill character. -/
theorem to_comment_body_fill_blank_witness :
    PluginsRev.to_comment (pystr "a\nb") (pystr "#") (pystr "-") .left 10 true false =
      PluginsRev.to_comment (pystr "a\nb") (pystr "#") (pystr "=") .left 10 true false :=
  to_comment_body_fill_blank.1 (pystr "a\nb") (pystr "#") (pystr "-") (pystr "=") .left 10 true
    (by decide)
